import Mathlib

/-!
Verification of the two specified subsystems of the nutrition-app backend:

* the anonymous-usage rate limiter with dual backend
  (`src/backend/app/middleware/rate_limit.py`), and
* the goal-achievement observer / notification subsystem
  (`src/backend/app/services/goal_observer.py`).

Timestamps are modelled as naturals (seconds, resp. abstract instants): the
source stores ISO-8601 strings whose lexicographic order coincides with
chronological order, so a linearly ordered numeric carrier is faithful.
-/

namespace NutritionApp

/-! ## Rate limiter (src/backend/app/middleware/rate_limit.py) -/

/-- `RateLimiter.max_requests_anonymous` (rate_limit.py line 26). -/
def maxRequestsAnonymous : Nat := 3

/-- The 24-hour window, in seconds (`timedelta(hours=24)` / `setex` TTL 86400). -/
def windowSeconds : Nat := 86400

/-- One entry of `usage_tracker` / one JSON value stored in Redis:
`{"count": ..., "first_request": ..., "reset_at": ...}`. -/
structure UsageRecord where
  count : Nat
  firstRequest : Nat
  resetAt : Nat
deriving DecidableEq, Repr

/-- The dict returned by `check_limit`: `{"allowed", "remaining", "reset_at"}`.
`remaining = -1` is the source's marker for unlimited (authenticated) access,
hence an `Int`; `reset_at` is `None` for authenticated callers. -/
structure CheckResult where
  allowed : Bool
  remaining : Int
  resetAt : Option Nat
deriving DecidableEq, Repr

/-- The dict returned by `get_usage`. -/
structure UsageResult where
  count : Nat
  remaining : Nat
  resetAt : Option Nat
deriving DecidableEq, Repr

/-- The in-memory backend: `self.usage_tracker`, a dict keyed by IP. -/
def MemState : Type := String → Option UsageRecord

def MemState.empty : MemState := fun _ => none

def MemState.update (st : MemState) (ip : String) (u : UsageRecord) : MemState :=
  fun k => if k = ip then some u else st k

/-- `RateLimiter._check_limit_memory` (rate_limit.py lines 128-159).
Lazily creates the record, resets it when `now >= reset_at`, then compares
`count` against the maximum.  The record write-back is modelled by an
unconditional update (in the source the dict entry is mutated in place or
freshly inserted; extensionally the same map). -/
def checkLimitMemory (now : Nat) (ip : String) (st : MemState) :
    CheckResult × MemState :=
  let usage0 :=
    match st ip with
    | some u => u
    | none => { count := 0, firstRequest := now, resetAt := now + windowSeconds }
  let usage :=
    if usage0.resetAt ≤ now then
      ({ count := 0, firstRequest := now, resetAt := now + windowSeconds } : UsageRecord)
    else usage0
  let st' := st.update ip usage
  if maxRequestsAnonymous ≤ usage.count then
    ({ allowed := false, remaining := 0, resetAt := some usage.resetAt }, st')
  else
    ({ allowed := true, remaining := (maxRequestsAnonymous : Int) - usage.count,
       resetAt := some usage.resetAt }, st')

/-- `RateLimiter._increment_usage_memory` (rate_limit.py lines 185-188):
increments only when a record exists. -/
def incrementUsageMemory (ip : String) (st : MemState) : MemState :=
  match st ip with
  | some u => st.update ip { u with count := u.count + 1 }
  | none => st

/-- `RateLimiter._get_usage_memory` (rate_limit.py lines 220-234);
`max(0, limit - count)` is truncated subtraction on `Nat`. -/
def getUsageMemory (ip : String) (st : MemState) : UsageResult :=
  match st ip with
  | none => { count := 0, remaining := maxRequestsAnonymous, resetAt := none }
  | some u =>
    { count := u.count, remaining := maxRequestsAnonymous - u.count,
      resetAt := some u.resetAt }

/-! ### Redis backend

Redis is modelled as a keyed store holding a value together with its absolute
expiry instant; `GET` observes nothing once `now` reaches the expiry
(TTL-based deletion), `SETEX key ttl v` stores `v` expiring at `now + ttl`,
and `TTL` reports the remaining seconds (`-2` for a missing/expired key,
as in Redis). -/

def RedisState : Type := String → Option (UsageRecord × Nat)

def RedisState.empty : RedisState := fun _ => none

/-- `f"rate_limit:{ip}"`. -/
def rateLimitKey (ip : String) : String := "rate_limit:" ++ ip

def redisGet (now : Nat) (key : String) (st : RedisState) : Option UsageRecord :=
  match st key with
  | some (u, exp) => if now < exp then some u else none
  | none => none

def redisSetex (key : String) (ttl : Nat) (u : UsageRecord) (now : Nat)
    (st : RedisState) : RedisState :=
  fun k => if k = key then some (u, now + ttl) else st k

def redisTtl (now : Nat) (key : String) (st : RedisState) : Int :=
  match st key with
  | some (_, exp) => if now < exp then (exp : Int) - (now : Int) else -2
  | none => -2

/-- `RateLimiter._check_limit_redis` (rate_limit.py lines 93-126): on a
missing key the fresh record is written with a 24h TTL; there is no explicit
window-reset branch — expiry is delegated to the TTL. -/
def checkLimitRedis (now : Nat) (ip : String) (st : RedisState) :
    CheckResult × RedisState :=
  let key := rateLimitKey ip
  let p :=
    match redisGet now key st with
    | none =>
      let u : UsageRecord :=
        { count := 0, firstRequest := now, resetAt := now + windowSeconds }
      (u, redisSetex key windowSeconds u now st)
    | some u => (u, st)
  let usage := p.1
  let st' := p.2
  if maxRequestsAnonymous ≤ usage.count then
    ({ allowed := false, remaining := 0, resetAt := some usage.resetAt }, st')
  else
    ({ allowed := true, remaining := (maxRequestsAnonymous : Int) - usage.count,
       resetAt := some usage.resetAt }, st')

/-- `RateLimiter._increment_usage_redis` (rate_limit.py lines 172-183). -/
def incrementUsageRedis (now : Nat) (ip : String) (st : RedisState) : RedisState :=
  let key := rateLimitKey ip
  match redisGet now key st with
  | some u =>
    let ttl := redisTtl now key st
    if 0 < ttl then
      redisSetex key ttl.toNat { u with count := u.count + 1 } now st
    else st
  | none => st

/-- `RateLimiter._get_usage_redis` (rate_limit.py lines 201-218). -/
def getUsageRedis (now : Nat) (ip : String) (st : RedisState) : UsageResult :=
  match redisGet now (rateLimitKey ip) st with
  | none => { count := 0, remaining := maxRequestsAnonymous, resetAt := none }
  | some u =>
    { count := u.count, remaining := maxRequestsAnonymous - u.count,
      resetAt := some u.resetAt }

/-! ### The dispatching limiter

`redisClient` models `self.redis_client is not None`; `redisFails` is the
environment assumption that every Redis operation raises.  A raising
operation is modelled as `Except.error` produced before any Redis side
effect (the first operation of each `_*_redis` helper is the failing
`GET`). -/

structure Limiter where
  redisClient : Bool
  redisFails : Bool
  redisSt : RedisState
  memSt : MemState

def checkLimitRedisE (now : Nat) (ip : String) (l : Limiter) :
    Except Unit (CheckResult × RedisState) :=
  if l.redisFails then .error () else .ok (checkLimitRedis now ip l.redisSt)

def incrementUsageRedisE (now : Nat) (ip : String) (l : Limiter) :
    Except Unit RedisState :=
  if l.redisFails then .error () else .ok (incrementUsageRedis now ip l.redisSt)

def getUsageRedisE (now : Nat) (ip : String) (l : Limiter) :
    Except Unit UsageResult :=
  if l.redisFails then .error () else .ok (getUsageRedis now ip l.redisSt)

/-- The dict returned for authenticated callers (rate_limit.py lines 76-81). -/
def unlimitedResult : CheckResult :=
  { allowed := true, remaining := -1, resetAt := none }

/-- `RateLimiter.check_limit` (rate_limit.py lines 63-91): authenticated
callers short-circuit; otherwise try Redis and fall back to memory on error. -/
def checkLimit (now : Nat) (ip : String) (isAuthenticated : Bool) (l : Limiter) :
    CheckResult × Limiter :=
  if isAuthenticated then (unlimitedResult, l)
  else if l.redisClient then
    match checkLimitRedisE now ip l with
    | .ok p => (p.1, { l with redisSt := p.2 })
    | .error _ =>
      let p := checkLimitMemory now ip l.memSt
      (p.1, { l with memSt := p.2 })
  else
    let p := checkLimitMemory now ip l.memSt
    (p.1, { l with memSt := p.2 })

/-- `RateLimiter.increment_usage` (rate_limit.py lines 161-170). -/
def incrementUsage (now : Nat) (ip : String) (l : Limiter) : Limiter :=
  if l.redisClient then
    match incrementUsageRedisE now ip l with
    | .ok rst => { l with redisSt := rst }
    | .error _ => { l with memSt := incrementUsageMemory ip l.memSt }
  else { l with memSt := incrementUsageMemory ip l.memSt }

/-- `RateLimiter.get_usage` (rate_limit.py lines 190-199). -/
def getUsage (now : Nat) (ip : String) (l : Limiter) : UsageResult :=
  if l.redisClient then
    match getUsageRedisE now ip l with
    | .ok r => r
    | .error _ => getUsageMemory ip l.memSt
  else getUsageMemory ip l.memSt

/-- The HTTP 429 payload raised by `check_rate_limit`
(rate_limit.py lines 258-266); the human-readable message is omitted. -/
structure RateLimitError where
  statusCode : Nat
  limit : Nat
  resetAt : Option Nat
  requiresAuth : Bool
deriving DecidableEq, Repr

/-- The dict returned by `check_rate_limit` on success
(rate_limit.py lines 272-275). -/
structure GateResult where
  remaining : Int
  resetAt : Option Nat
deriving DecidableEq, Repr

/-- `check_rate_limit` (rate_limit.py lines 242-275): check, raise 429 when
blocked, otherwise increment for anonymous callers and report the
pre-increment remaining/reset. -/
def checkRateLimit (now : Nat) (ip : String) (tokenPresent : Bool) (l : Limiter) :
    Except RateLimitError GateResult × Limiter :=
  let isAuthenticated := tokenPresent
  let p := checkLimit now ip isAuthenticated l
  let lc := p.1
  let l1 := p.2
  if lc.allowed then
    let l2 := if isAuthenticated then l1 else incrementUsage now ip l1
    (.ok { remaining := lc.remaining, resetAt := lc.resetAt }, l2)
  else
    (.error { statusCode := 429, limit := maxRequestsAnonymous,
              resetAt := lc.resetAt, requiresAuth := true }, l1)

/-- One `check`+`increment` cycle on the in-memory backend. -/
def memCycle (now : Nat) (ip : String) (st : MemState) : MemState :=
  incrementUsageMemory ip (checkLimitMemory now ip st).2

/-! ### Helper lemmas about the in-memory backend -/

theorem MemState.update_self (st : MemState) (ip : String) (u : UsageRecord) :
    st.update ip u ip = some u := by
  simp [MemState.update]

theorem MemState.update_other (st : MemState) (ip : String) (u : UsageRecord)
    (k : String) (h : k ≠ ip) : st.update ip u k = st k := by
  simp [MemState.update, h]

theorem checkLimitMemory_none (now : Nat) (ip : String) (st : MemState)
    (h : st ip = none) :
    checkLimitMemory now ip st =
      ({ allowed := true, remaining := (maxRequestsAnonymous : Int),
         resetAt := some (now + windowSeconds) },
       st.update ip { count := 0, firstRequest := now, resetAt := now + windowSeconds }) := by
  unfold checkLimitMemory
  rw [h]
  simp [maxRequestsAnonymous, windowSeconds]

theorem checkLimitMemory_expired (now : Nat) (ip : String) (st : MemState)
    (u : UsageRecord) (h : st ip = some u) (hexp : u.resetAt ≤ now) :
    checkLimitMemory now ip st =
      ({ allowed := true, remaining := (maxRequestsAnonymous : Int),
         resetAt := some (now + windowSeconds) },
       st.update ip { count := 0, firstRequest := now, resetAt := now + windowSeconds }) := by
  unfold checkLimitMemory
  rw [h]
  simp [maxRequestsAnonymous, windowSeconds, hexp]

theorem checkLimitMemory_live_lt (now : Nat) (ip : String) (st : MemState)
    (u : UsageRecord) (h : st ip = some u) (hlt : now < u.resetAt)
    (hc : u.count < maxRequestsAnonymous) :
    checkLimitMemory now ip st =
      ({ allowed := true, remaining := (maxRequestsAnonymous : Int) - u.count,
         resetAt := some u.resetAt }, st.update ip u) := by
  unfold checkLimitMemory
  rw [h]
  simp [Nat.not_le.mpr hlt, Nat.not_le.mpr hc]

theorem checkLimitMemory_live_ge (now : Nat) (ip : String) (st : MemState)
    (u : UsageRecord) (h : st ip = some u) (hlt : now < u.resetAt)
    (hc : maxRequestsAnonymous ≤ u.count) :
    checkLimitMemory now ip st =
      ({ allowed := false, remaining := 0, resetAt := some u.resetAt },
       st.update ip u) := by
  unfold checkLimitMemory
  rw [h]
  simp [Nat.not_le.mpr hlt, hc]

theorem incrementUsageMemory_some (ip : String) (st : MemState) (u : UsageRecord)
    (h : st ip = some u) :
    incrementUsageMemory ip st = st.update ip { u with count := u.count + 1 } := by
  unfold incrementUsageMemory
  rw [h]

theorem incrementUsageMemory_none (ip : String) (st : MemState)
    (h : st ip = none) : incrementUsageMemory ip st = st := by
  unfold incrementUsageMemory
  rw [h]

theorem memCycle_fresh (now : Nat) (ip : String) (st : MemState)
    (h : st ip = none) :
    memCycle now ip st ip =
      some { count := 1, firstRequest := now, resetAt := now + windowSeconds } := by
  unfold memCycle
  rw [congrArg Prod.snd (checkLimitMemory_none now ip st h),
    incrementUsageMemory_some ip _ _ (MemState.update_self ..)]
  exact MemState.update_self ..

theorem memCycle_live (now : Nat) (ip : String) (st : MemState) (u : UsageRecord)
    (h : st ip = some u) (hlt : now < u.resetAt) (hc : u.count < maxRequestsAnonymous) :
    memCycle now ip st ip =
      some { count := u.count + 1, firstRequest := u.firstRequest, resetAt := u.resetAt } := by
  unfold memCycle
  rw [congrArg Prod.snd (checkLimitMemory_live_lt now ip st u h hlt hc),
    incrementUsageMemory_some ip _ _ (MemState.update_self ..)]
  exact MemState.update_self ..

/-- C2: starting from an empty in-memory table, exactly
`maxRequestsAnonymous = 3` check+increment cycles for an IP make the fourth
`check_limit` report `allowed = false` with `remaining = 0`. -/
theorem quota_exhausted_after_max_cycles (now : Nat) (ip : String) :
    (checkLimitMemory now ip
        (memCycle now ip (memCycle now ip (memCycle now ip MemState.empty)))).1 =
      { allowed := false, remaining := 0, resetAt := some (now + windowSeconds) } := by
  have hW : now < now + windowSeconds := by
    simp [windowSeconds]
  have h1 := memCycle_fresh now ip MemState.empty rfl
  have h2 := memCycle_live now ip _ _ h1 hW (by simp [maxRequestsAnonymous])
  have h3 := memCycle_live now ip _ _ h2 hW (by simp [maxRequestsAnonymous])
  rw [congrArg Prod.fst (checkLimitMemory_live_ge now ip _ _ h3 hW
    (by simp [maxRequestsAnonymous]))]

theorem MemState.update_update (st : MemState) (ip : String) (u v : UsageRecord) :
    (st.update ip u).update ip v = st.update ip v := by
  funext k
  by_cases h : k = ip <;> simp [MemState.update, h]

theorem MemState.update_eq_self (st : MemState) (ip : String) (u : UsageRecord)
    (h : st ip = some u) : st.update ip u = st := by
  funext k
  by_cases hk : k = ip
  · subst hk
    simp [MemState.update, h.symm]
  · simp [MemState.update, hk]

/-- C3 counterexample: checking is not mutation-free.  For an IP whose
record sits at the maximum with an already-elapsed window, the very next
`_check_limit_memory` call rewrites the stored count from 3 to 0 (the lazy
window reset), so "neither call changes the stored count" fails. -/
def ipC3 : String := "203.0.113.9"

def stC3 : MemState :=
  MemState.empty.update ipC3 { count := 3, firstRequest := 0, resetAt := 50 }

/-- C3 is refuted as stated: at `now = 50 ≥ reset_at = 50` the first of two
back-to-back checks changes the stored count for the IP (3 becomes 0). -/
theorem check_resets_expired_count :
    stC3 ipC3 = some { count := 3, firstRequest := 0, resetAt := 50 } ∧
    (checkLimitMemory 50 ipC3 stC3).2 ipC3 =
      some { count := 0, firstRequest := 50, resetAt := 50 + windowSeconds } ∧
    (checkLimitMemory 50 ipC3 stC3).2 ipC3 ≠ stC3 ipC3 := by
  refine ⟨rfl, ?_, ?_⟩ <;> decide

/-- C3 amended: two back-to-back `_check_limit_memory` calls (no intervening
increment) return identical results, and the second call leaves the state
exactly as the first left it.  Checking never increases the stored count —
the only mutations are the lazy record creation and the sanctioned window
reset to 0 — and when a live (unexpired) record exists, checking leaves the
state entirely unchanged. -/
theorem check_idempotent_no_increment (now : Nat) (ip : String) (st : MemState) :
    (checkLimitMemory now ip (checkLimitMemory now ip st).2).1 =
      (checkLimitMemory now ip st).1 ∧
    (checkLimitMemory now ip (checkLimitMemory now ip st).2).2 =
      (checkLimitMemory now ip st).2 ∧
    (∀ u, st ip = some u → now < u.resetAt → (checkLimitMemory now ip st).2 = st) ∧
    (∀ u u', st ip = some u → (checkLimitMemory now ip st).2 ip = some u' →
      u'.count ≤ u.count) := by
  have hW : now < now + windowSeconds := by simp [windowSeconds]
  -- the record after the first check is live and determines both results
  have key : ∃ usage : UsageRecord,
      (checkLimitMemory now ip st).2 = st.update ip usage ∧ now < usage.resetAt ∧
      checkLimitMemory now ip st =
        ((if maxRequestsAnonymous ≤ usage.count then
            ({ allowed := false, remaining := 0, resetAt := some usage.resetAt } : CheckResult)
          else
            { allowed := true, remaining := (maxRequestsAnonymous : Int) - usage.count,
              resetAt := some usage.resetAt }), st.update ip usage) := by
    cases h : st ip with
    | none =>
      refine ⟨{ count := 0, firstRequest := now, resetAt := now + windowSeconds },
        ?_, hW, ?_⟩
      · rw [checkLimitMemory_none now ip st h]
      · rw [checkLimitMemory_none now ip st h]
        simp [maxRequestsAnonymous]
    | some u =>
      rcases Nat.lt_or_ge now u.resetAt with hlt | hexp
      · refine ⟨u, ?_, hlt, ?_⟩ <;>
          rcases Nat.lt_or_ge u.count maxRequestsAnonymous with hc | hc
        · rw [checkLimitMemory_live_lt now ip st u h hlt hc]
        · rw [checkLimitMemory_live_ge now ip st u h hlt hc]
        · rw [checkLimitMemory_live_lt now ip st u h hlt hc, if_neg (Nat.not_le.mpr hc)]
        · rw [checkLimitMemory_live_ge now ip st u h hlt hc, if_pos hc]
      · refine ⟨{ count := 0, firstRequest := now, resetAt := now + windowSeconds },
          ?_, hW, ?_⟩
        · rw [checkLimitMemory_expired now ip st u h hexp]
        · rw [checkLimitMemory_expired now ip st u h hexp]
          simp [maxRequestsAnonymous]
  obtain ⟨usage, hst, hlive, heq⟩ := key
  have hlook : (checkLimitMemory now ip st).2 ip = some usage := by
    rw [hst]; exact MemState.update_self ..
  have hsecond :
      checkLimitMemory now ip (checkLimitMemory now ip st).2 =
        ((if maxRequestsAnonymous ≤ usage.count then
            ({ allowed := false, remaining := 0, resetAt := some usage.resetAt } : CheckResult)
          else
            { allowed := true, remaining := (maxRequestsAnonymous : Int) - usage.count,
              resetAt := some usage.resetAt }), (checkLimitMemory now ip st).2) := by
    rcases Nat.lt_or_ge usage.count maxRequestsAnonymous with hc | hc
    · rw [checkLimitMemory_live_lt now ip _ usage hlook hlive hc,
        if_neg (Nat.not_le.mpr hc), MemState.update_eq_self _ _ _ hlook]
    · rw [checkLimitMemory_live_ge now ip _ usage hlook hlive hc, if_pos hc,
        MemState.update_eq_self _ _ _ hlook]
  refine ⟨?_, ?_, ?_, ?_⟩
  · rw [hsecond, heq]
  · rw [hsecond]
  · intro u hu hult
    rcases Nat.lt_or_ge u.count maxRequestsAnonymous with hc | hc
    · rw [checkLimitMemory_live_lt now ip st u hu hult hc,
        MemState.update_eq_self _ _ _ hu]
    · rw [checkLimitMemory_live_ge now ip st u hu hult hc,
        MemState.update_eq_self _ _ _ hu]
  · intro u u' hu hu'
    rcases Nat.lt_or_ge now u.resetAt with hlt | hexp
    · have : (checkLimitMemory now ip st).2 ip = some u := by
        rcases Nat.lt_or_ge u.count maxRequestsAnonymous with hc | hc
        · rw [checkLimitMemory_live_lt now ip st u hu hlt hc]
          exact MemState.update_self ..
        · rw [checkLimitMemory_live_ge now ip st u hu hlt hc]
          exact MemState.update_self ..
      rw [this] at hu'
      cases hu'
      exact Nat.le_refl _
    · have : (checkLimitMemory now ip st).2 ip =
          some { count := 0, firstRequest := now, resetAt := now + windowSeconds } := by
        rw [checkLimitMemory_expired now ip st u hu hexp]
        exact MemState.update_self ..
      rw [this] at hu'
      cases hu'
      exact Nat.zero_le _

/-- Witness for the amended C3 at a concrete live state: checking leaves the
state untouched and twice-checking returns the first result. -/
theorem check_idempotent_no_increment_inst :
    (MemState.empty.update "198.51.100.7"
        { count := 1, firstRequest := 0, resetAt := 99 }) "198.51.100.7" =
      some { count := 1, firstRequest := 0, resetAt := 99 } ∧
    (10 : Nat) < 99 ∧
    (checkLimitMemory 10 "198.51.100.7"
        (MemState.empty.update "198.51.100.7"
          { count := 1, firstRequest := 0, resetAt := 99 })).2 =
      MemState.empty.update "198.51.100.7"
        { count := 1, firstRequest := 0, resetAt := 99 } := by
  refine ⟨by decide, by decide, ?_⟩
  exact (check_idempotent_no_increment 10 "198.51.100.7" _).2.2.1
    { count := 1, firstRequest := 0, resetAt := 99 } (by decide) (by decide)

/-! ### Redis-path helper lemmas -/

theorem redisGet_expired (now : Nat) (key : String) (st : RedisState)
    (u : UsageRecord) (exp : Nat) (h : st key = some (u, exp)) (hexp : exp ≤ now) :
    redisGet now key st = none := by
  unfold redisGet
  rw [h]
  simp [Nat.not_lt.mpr hexp]

theorem checkLimitRedis_miss (now : Nat) (ip : String) (st : RedisState)
    (h : redisGet now (rateLimitKey ip) st = none) :
    checkLimitRedis now ip st =
      ({ allowed := true, remaining := (maxRequestsAnonymous : Int),
         resetAt := some (now + windowSeconds) },
       redisSetex (rateLimitKey ip) windowSeconds
         { count := 0, firstRequest := now, resetAt := now + windowSeconds } now st) := by
  simp only [checkLimitRedis]
  rw [h]
  simp [maxRequestsAnonymous]

/-- C4: an IP whose record sits at the maximum is granted the full quota
again once `now` reaches `reset_at`, with the count back at 0 and a fresh
window 24h ahead — on the in-memory path (explicit lazy reset) and on the
Redis path (TTL expiry of the stored key, whose expiry instant coincides
with the record's `reset_at` by construction). -/
theorem window_reset_restores_quota (now : Nat) (ip : String) (l : Limiter)
    (u : UsageRecord) :
    (l.redisClient = false → l.memSt ip = some u →
      u.count = maxRequestsAnonymous → u.resetAt ≤ now →
      (checkLimit now ip false l).1 =
        { allowed := true, remaining := (maxRequestsAnonymous : Int),
          resetAt := some (now + windowSeconds) } ∧
      (checkLimit now ip false l).2.memSt ip =
        some { count := 0, firstRequest := now, resetAt := now + windowSeconds }) ∧
    (l.redisClient = true → l.redisFails = false →
      l.redisSt (rateLimitKey ip) = some (u, u.resetAt) →
      u.count = maxRequestsAnonymous → u.resetAt ≤ now →
      (checkLimit now ip false l).1 =
        { allowed := true, remaining := (maxRequestsAnonymous : Int),
          resetAt := some (now + windowSeconds) } ∧
      (checkLimit now ip false l).2.redisSt (rateLimitKey ip) =
        some ({ count := 0, firstRequest := now, resetAt := now + windowSeconds },
          now + windowSeconds)) := by
  constructor
  · intro hrc hmem _ hexp
    have h := checkLimitMemory_expired now ip l.memSt u hmem hexp
    simp only [checkLimit, hrc, Bool.false_eq_true, if_false, h]
    exact ⟨trivial, MemState.update_self ..⟩
  · intro hrc hrf hred _ hexp
    have hget : redisGet now (rateLimitKey ip) l.redisSt = none :=
      redisGet_expired now _ _ u u.resetAt hred hexp
    have h := checkLimitRedis_miss now ip l.redisSt hget
    simp only [checkLimit, hrc, if_true, checkLimitRedisE, hrf, Bool.false_eq_true,
      if_false, h]
    refine ⟨trivial, ?_⟩
    simp [redisSetex]

/-- Witness for C4 at a concrete exhausted, expired record on both backends. -/
theorem window_reset_restores_quota_inst :
    (checkLimit 60 "192.0.2.1"  false
        { redisClient := false, redisFails := false, redisSt := RedisState.empty,
          memSt := MemState.empty.update "192.0.2.1"
            { count := 3, firstRequest := 0, resetAt := 60 } }).1 =
      { allowed := true, remaining := (maxRequestsAnonymous : Int),
        resetAt := some (60 + windowSeconds) } ∧
    (checkLimit 60 "192.0.2.1" false
        { redisClient := true, redisFails := false,
          redisSt := fun k => if k = rateLimitKey "192.0.2.1" then
            some ({ count := 3, firstRequest := 0, resetAt := 60 }, 60) else none,
          memSt := MemState.empty }).1 =
      { allowed := true, remaining := (maxRequestsAnonymous : Int),
        resetAt := some (60 + windowSeconds) } := by
  constructor
  · exact ((window_reset_restores_quota 60 "192.0.2.1" _
      { count := 3, firstRequest := 0, resetAt := 60 }).1 rfl (by decide) rfl
      (by decide)).1
  · exact ((window_reset_restores_quota 60 "192.0.2.1" _
      { count := 3, firstRequest := 0, resetAt := 60 }).2 rfl rfl (by decide) rfl
      (by decide)).1

/-- C5: an authenticated call always reports unlimited access
(`allowed = true`, `remaining = -1`, `reset_at = None`), reads nothing from
and writes nothing to either backend, and the gate `check_rate_limit` never
increments usage for authenticated callers — the limiter state is returned
unchanged. -/
theorem authenticated_bypasses_quota (now : Nat) (ip : String) (l : Limiter) :
    checkLimit now ip true l = (unlimitedResult, l) ∧
    checkRateLimit now ip true l =
      (.ok { remaining := -1, resetAt := none }, l) := by
  constructor
  · rfl
  · rfl

/-! ### C6: transparency of the memory fallback under total Redis failure -/

/-- One call into the limiter's public API. -/
inductive LimiterOp where
  | check (now : Nat) (ip : String) (isAuthenticated : Bool)
  | increment (now : Nat) (ip : String)
  | usage (now : Nat) (ip : String)
deriving DecidableEq, Repr

/-- The value returned to the caller by one call. -/
inductive LimiterOut where
  | check (r : CheckResult)
  | unit
  | usage (r : UsageResult)
deriving DecidableEq, Repr

def runOp : LimiterOp → Limiter → LimiterOut × Limiter
  | .check now ip auth, l =>
    let p := checkLimit now ip auth l
    (.check p.1, p.2)
  | .increment now ip, l => (.unit, incrementUsage now ip l)
  | .usage now ip, l => (.usage (getUsage now ip l), l)

def runOps : List LimiterOp → Limiter → List LimiterOut × Limiter
  | [], l => ([], l)
  | op :: ops, l =>
    let p := runOp op l
    let q := runOps ops p.2
    (p.1 :: q.1, q.2)

/-- A limiter configured without a Redis client: the pure in-memory path. -/
def memOnly (m : MemState) : Limiter :=
  { redisClient := false, redisFails := false, redisSt := RedisState.empty,
    memSt := m }

theorem runOp_fails (op : LimiterOp) (l : Limiter) (h : l.redisFails = true) :
    runOp op l =
      ((runOp op (memOnly l.memSt)).1,
       { l with memSt := (runOp op (memOnly l.memSt)).2.memSt }) := by
  obtain ⟨rc, rf, rst, mst⟩ := l
  simp only at h
  subst h
  cases op with
  | check now ip auth =>
    cases auth <;> cases rc <;>
      simp [runOp, checkLimit, memOnly, checkLimitRedisE]
  | increment now ip =>
    cases rc <;> simp [runOp, incrementUsage, memOnly, incrementUsageRedisE]
  | usage now ip =>
    cases rc <;> simp [runOp, getUsage, memOnly, getUsageRedisE]

theorem runOp_memOnly (op : LimiterOp) (m : MemState) :
    (runOp op (memOnly m)).2 = memOnly ((runOp op (memOnly m)).2.memSt) := by
  cases op with
  | check now ip auth =>
    cases auth <;> simp [runOp, checkLimit, memOnly]
  | increment now ip => simp [runOp, incrementUsage, memOnly]
  | usage now ip => simp [runOp, memOnly]

theorem runOps_fails_aux (ops : List LimiterOp) (rc : Bool) (rst : RedisState)
    (mst : MemState) :
    runOps ops ⟨rc, true, rst, mst⟩ =
      ((runOps ops (memOnly mst)).1,
       ⟨rc, true, rst, (runOps ops (memOnly mst)).2.memSt⟩) := by
  induction ops generalizing mst with
  | nil => rfl
  | cons op ops ih =>
    have hop := runOp_fails op ⟨rc, true, rst, mst⟩ rfl
    simp only [runOps, hop]
    rw [runOp_memOnly op mst, ih]
    rfl

theorem runOps_fails (ops : List LimiterOp) (l : Limiter)
    (h : l.redisFails = true) :
    runOps ops l =
      ((runOps ops (memOnly l.memSt)).1,
       { l with memSt := (runOps ops (memOnly l.memSt)).2.memSt }) := by
  obtain ⟨rc, rf, rst, mst⟩ := l
  simp only at h
  subst h
  exact runOps_fails_aux ops rc rst mst

/-- C6: when every Redis operation raises, no exception reaches the caller
(every call still produces a result — the `Except.error` of the failing
backend is consumed by the fallback branch), and an arbitrary sequence of
`check_limit` / `increment_usage` / `get_usage` calls returns exactly the
outputs of the limiter running purely on the in-memory backend, evolving
the in-memory table identically and leaving the Redis store untouched. -/
theorem redis_failure_falls_back_to_memory (ops : List LimiterOp) (l : Limiter)
    (h : l.redisFails = true) :
    (runOps ops l).1 = (runOps ops (memOnly l.memSt)).1 ∧
    (runOps ops l).2.memSt = (runOps ops (memOnly l.memSt)).2.memSt ∧
    (runOps ops l).2.redisSt = l.redisSt := by
  rw [runOps_fails ops l h]
  exact ⟨rfl, rfl, rfl⟩

/-- Witness for C6: a concrete three-call trace against an always-failing
Redis client produces exactly the in-memory trace. -/
theorem redis_failure_falls_back_to_memory_inst :
    (runOps [.check 5 "10.0.0.8" false, .increment 5 "10.0.0.8", .usage 5 "10.0.0.8"]
        { redisClient := true, redisFails := true, redisSt := RedisState.empty,
          memSt := MemState.empty }).1 =
      (runOps [.check 5 "10.0.0.8" false, .increment 5 "10.0.0.8", .usage 5 "10.0.0.8"]
        (memOnly MemState.empty)).1 := by
  exact (redis_failure_falls_back_to_memory _ _ rfl).1

/-- C7: the unauthenticated gate.  When the check reports `allowed = false`,
`check_rate_limit` raises the 429 condition carrying the configured limit,
the reset time and `requires_auth = true`, and performs no increment (the
final state is exactly the post-check state).  When the check reports
`allowed = true` it returns the remaining count and reset time and
increments usage for the anonymous caller. -/
theorem gate_raises_429_or_returns_remaining (now : Nat) (ip : String) (l : Limiter) :
    ((checkLimit now ip false l).1.allowed = false →
      checkRateLimit now ip false l =
        (.error { statusCode := 429, limit := maxRequestsAnonymous,
                  resetAt := (checkLimit now ip false l).1.resetAt,
                  requiresAuth := true },
         (checkLimit now ip false l).2)) ∧
    ((checkLimit now ip false l).1.allowed = true →
      checkRateLimit now ip false l =
        (.ok { remaining := (checkLimit now ip false l).1.remaining,
               resetAt := (checkLimit now ip false l).1.resetAt },
         incrementUsage now ip (checkLimit now ip false l).2)) := by
  constructor
  · intro hna
    simp [checkRateLimit, hna]
  · intro ha
    simp [checkRateLimit, ha]

/-- Witness for C7: a concrete exhausted record raises the 429 payload; a
fresh state returns the remaining quota. -/
theorem gate_raises_429_or_returns_remaining_inst :
    ((checkLimit 70 "172.16.0.2" false
        (memOnly (MemState.empty.update "172.16.0.2"
          { count := 3, firstRequest := 0, resetAt := 999 }))).1.allowed = false ∧
      (checkRateLimit 70 "172.16.0.2" false
        (memOnly (MemState.empty.update "172.16.0.2"
          { count := 3, firstRequest := 0, resetAt := 999 }))).1 =
        .error { statusCode := 429, limit := maxRequestsAnonymous,
                 resetAt := some 999, requiresAuth := true }) ∧
    ((checkLimit 70 "172.16.0.2" false (memOnly MemState.empty)).1.allowed = true ∧
      (checkRateLimit 70 "172.16.0.2" false (memOnly MemState.empty)).1 =
        .ok { remaining := (maxRequestsAnonymous : Int),
              resetAt := some (70 + windowSeconds) }) := by
  constructor
  · refine ⟨by decide, ?_⟩
    rw [congrArg Prod.fst ((gate_raises_429_or_returns_remaining 70 "172.16.0.2" _).1
      (by decide))]
    rfl
  · refine ⟨by decide, ?_⟩
    rw [congrArg Prod.fst ((gate_raises_429_or_returns_remaining 70 "172.16.0.2" _).2
      (by decide))]
    rfl

/-! ## Goal observer (src/backend/app/services/goal_observer.py)

Dates are modelled as naturals: the source stores `date` objects and their
ISO strings, whose lexicographic order coincides with chronological order.
`round(x, 1)` is modelled over exact rationals. -/

/-- `round(x, 1)` over exact rationals: scale by ten, round to the nearest
integer, scale back.  (At exact `.x5` ties Python rounds half-to-even while
this rounds half-up; no property below involves a tie.) -/
def roundTo1 (q : ℚ) : ℚ := ((⌊q * 10 + 1 / 2⌋ : ℤ) : ℚ) / 10

/-- `round((actual_value / goal_value) * 100, 1)` (goal_observer.py line 250). -/
def goalPercentage (actual : ℚ) (goalValue : Int) : ℚ :=
  roundTo1 (actual / (goalValue : ℚ) * 100)

/-- The achievement payload built in `GoalTracker.check_goals`; the 100%
branch carries `achieved = True` and no milestone, the 90%/80% branches
carry `achieved = False` and their milestone string. -/
structure Achievement where
  goalType : String
  goalValue : Int
  actualValue : ℚ
  percentage : ℚ
  date : Nat
  achieved : Bool
  milestone : Option String
deriving DecidableEq, Repr

/-- One entry of `ToastNotificationObserver.notifications[user_id]`; the
presentation-only fields (`type`, `title`, `message`) are omitted.
`created_at` is the achievement's date (goal_observer.py line 59). -/
structure Notification where
  id : String
  read : Bool
  createdAt : Nat
  achievement : Achievement
deriving DecidableEq, Repr

/-- `self.notifications`, keyed by user id; an absent user and an empty
list are observationally identical in every operation. -/
def ToastState : Type := String → List Notification

def ToastState.empty : ToastState := fun _ => []

/-- `f"{user_id}_{achievement['goal_type']}_{achievement['date']}"`
(goal_observer.py line 40) — the composite contains no threshold tier. -/
def notificationId (userId : String) (a : Achievement) : String :=
  userId ++ "_" ++ a.goalType ++ "_" ++ toString a.date

/-- The notification dict built in `notify` (goal_observer.py lines 52-60):
fresh entries are unread and dated by the achievement. -/
def mkNotification (userId : String) (a : Achievement) : Notification :=
  { id := notificationId userId a, read := false, createdAt := a.date,
    achievement := a }

/-- `ToastNotificationObserver.notify` (goal_observer.py lines 35-63):
skip when an entry with the same id already exists, else append. -/
def toastNotify (userId : String) (a : Achievement) (st : ToastState) :
    ToastState :=
  let nid := notificationId userId a
  if (st userId).any (fun n => n.id == nid) then st
  else fun u =>
    if u = userId then st userId ++ [mkNotification userId a]
    else st u

/-- `GoalTracker` state: the achievement cache (a set of composite keys)
plus the toast observer's storage.  The logging observer is stateless and
therefore not modelled. -/
structure TrackerState where
  cache : List String
  toast : ToastState

def TrackerState.empty : TrackerState := ⟨[], ToastState.empty⟩

/-- `f"{user_id}_{goal_type}_{target_date}"` (goal_observer.py line 251). -/
def cacheKey (userId goalType : String) (targetDate : Nat) : String :=
  userId ++ "_" ++ goalType ++ "_" ++ toString targetDate

inductive Tier where
  | t80
  | t90
  | t100
deriving DecidableEq, Repr

/-- The achievement dict built in the corresponding branch of `check_goals`
(goal_observer.py lines 254-261, 266-274, 279-287). -/
def mkAchievement (goalType : String) (goalValue : Int) (actual pct : ℚ)
    (targetDate : Nat) : Tier → Achievement
  | .t100 =>
    { goalType := goalType, goalValue := goalValue, actualValue := roundTo1 actual,
      percentage := pct, date := targetDate, achieved := true, milestone := none }
  | .t90 =>
    { goalType := goalType, goalValue := goalValue, actualValue := roundTo1 actual,
      percentage := pct, date := targetDate, achieved := false,
      milestone := some "90%" }
  | .t80 =>
    { goalType := goalType, goalValue := goalValue, actualValue := roundTo1 actual,
      percentage := pct, date := targetDate, achieved := false,
      milestone := some "80%" }

/-- Observer dispatch followed by marking the cache key
(`await self.notify_observers(...)`; `self.achievement_cache[key] = True`). -/
def fireAchievement (userId : String) (a : Achievement) (key : String)
    (st : TrackerState) : TrackerState :=
  { cache := key :: st.cache, toast := toastNotify userId a st.toast }

/-- The body of the per-goal-type loop of `GoalTracker.check_goals`
(goal_observer.py lines 243-289): skip non-positive / missing goals, then
the `if pct >= 100` / `elif 90 <= pct < 100` / `elif 80 <= pct < 90`
chain, each branch guarded by its own cache key. -/
def checkGoalType (userId : String) (targetDate : Nat) (goalType : String)
    (actual : ℚ) (goalOpt : Option Int) (st : TrackerState) : TrackerState :=
  let goalValue := goalOpt.getD 0
  if goalValue ≤ 0 then st
  else
    let percentage := goalPercentage actual goalValue
    let key := cacheKey userId goalType targetDate
    if 100 ≤ percentage ∧ key ∉ st.cache then
      fireAchievement userId
        (mkAchievement goalType goalValue actual percentage targetDate .t100) key st
    else if (90 ≤ percentage ∧ percentage < 100) ∧ (key ++ "_90") ∉ st.cache then
      fireAchievement userId
        (mkAchievement goalType goalValue actual percentage targetDate .t90)
        (key ++ "_90") st
    else if (80 ≤ percentage ∧ percentage < 90) ∧ (key ++ "_80") ∉ st.cache then
      fireAchievement userId
        (mkAchievement goalType goalValue actual percentage targetDate .t80)
        (key ++ "_80") st
    else st

/-- `daily_stats` totals (missing keys default to 0 in the source). -/
structure DailyStats where
  totalCalories : ℚ
  totalProteinG : ℚ
  totalCarbsG : ℚ
  totalFatG : ℚ
deriving DecidableEq, Repr

/-- `user_goals`; a missing key yields 0 via `.get(goal_key, 0)`. -/
structure UserGoals where
  dailyCalorieGoal : Option Int
  dailyProteinGoal : Option Int
  dailyCarbsGoal : Option Int
  dailyFatGoal : Option Int
deriving DecidableEq, Repr

/-- `GoalTracker.check_goals`: the four goal types in dict order. -/
def checkGoals (userId : String) (targetDate : Nat) (stats : DailyStats)
    (goals : UserGoals) (st : TrackerState) : TrackerState :=
  let st1 := checkGoalType userId targetDate "calories" stats.totalCalories
    goals.dailyCalorieGoal st
  let st2 := checkGoalType userId targetDate "protein" stats.totalProteinG
    goals.dailyProteinGoal st1
  let st3 := checkGoalType userId targetDate "carbs" stats.totalCarbsG
    goals.dailyCarbsGoal st2
  checkGoalType userId targetDate "fat" stats.totalFatG goals.dailyFatGoal st3

/-- The tier whose range contains the rounded percentage (spec §4.2):
100% for `pct ≥ 100`, 90% for `90 ≤ pct < 100`, 80% for `80 ≤ pct < 90`. -/
def tierOf (pct : ℚ) : Option Tier :=
  if 100 ≤ pct then some .t100
  else if 90 ≤ pct then some .t90
  else if 80 ≤ pct then some .t80
  else none

/-- The cache key guarding a tier: the bare composite for 100%, with a
`_90` / `_80` suffix for the other tiers. -/
def tierCacheKey (key : String) : Tier → String
  | .t100 => key
  | .t90 => key ++ "_90"
  | .t80 => key ++ "_80"

/-! ### Branch lemmas for `checkGoalType` -/

theorem checkGoalType_skip (userId : String) (targetDate : Nat) (goalType : String)
    (actual : ℚ) (goalOpt : Option Int) (st : TrackerState)
    (h : goalOpt.getD 0 ≤ 0) :
    checkGoalType userId targetDate goalType actual goalOpt st = st := by
  simp only [checkGoalType]
  rw [if_pos h]

theorem checkGoalType_fire100 (userId : String) (targetDate : Nat)
    (goalType : String) (actual : ℚ) (goalOpt : Option Int) (st : TrackerState)
    (hpos : 0 < goalOpt.getD 0)
    (h100 : 100 ≤ goalPercentage actual (goalOpt.getD 0))
    (hk : cacheKey userId goalType targetDate ∉ st.cache) :
    checkGoalType userId targetDate goalType actual goalOpt st =
      fireAchievement userId
        (mkAchievement goalType (goalOpt.getD 0) actual
          (goalPercentage actual (goalOpt.getD 0)) targetDate .t100)
        (cacheKey userId goalType targetDate) st := by
  simp only [checkGoalType]
  rw [if_neg (not_le.mpr hpos), if_pos ⟨h100, hk⟩]

theorem checkGoalType_fire90 (userId : String) (targetDate : Nat)
    (goalType : String) (actual : ℚ) (goalOpt : Option Int) (st : TrackerState)
    (hpos : 0 < goalOpt.getD 0)
    (h90 : 90 ≤ goalPercentage actual (goalOpt.getD 0))
    (hlt : goalPercentage actual (goalOpt.getD 0) < 100)
    (hk : cacheKey userId goalType targetDate ++ "_90" ∉ st.cache) :
    checkGoalType userId targetDate goalType actual goalOpt st =
      fireAchievement userId
        (mkAchievement goalType (goalOpt.getD 0) actual
          (goalPercentage actual (goalOpt.getD 0)) targetDate .t90)
        (cacheKey userId goalType targetDate ++ "_90") st := by
  simp only [checkGoalType]
  rw [if_neg (not_le.mpr hpos), if_neg (fun hc => not_le.mpr hlt hc.1),
    if_pos ⟨⟨h90, hlt⟩, hk⟩]

theorem checkGoalType_fire80 (userId : String) (targetDate : Nat)
    (goalType : String) (actual : ℚ) (goalOpt : Option Int) (st : TrackerState)
    (hpos : 0 < goalOpt.getD 0)
    (h80 : 80 ≤ goalPercentage actual (goalOpt.getD 0))
    (hlt : goalPercentage actual (goalOpt.getD 0) < 90)
    (hk : cacheKey userId goalType targetDate ++ "_80" ∉ st.cache) :
    checkGoalType userId targetDate goalType actual goalOpt st =
      fireAchievement userId
        (mkAchievement goalType (goalOpt.getD 0) actual
          (goalPercentage actual (goalOpt.getD 0)) targetDate .t80)
        (cacheKey userId goalType targetDate ++ "_80") st := by
  simp only [checkGoalType]
  rw [if_neg (not_le.mpr hpos),
    if_neg (fun hc => not_le.mpr (lt_of_lt_of_le hlt (by norm_num)) hc.1),
    if_neg (fun hc => not_lt.mpr hc.1.1 hlt),
    if_pos ⟨⟨h80, hlt⟩, hk⟩]

theorem checkGoalType_noop (userId : String) (targetDate : Nat)
    (goalType : String) (actual : ℚ) (goalOpt : Option Int) (st : TrackerState)
    (h1 : ¬(100 ≤ goalPercentage actual (goalOpt.getD 0) ∧
      cacheKey userId goalType targetDate ∉ st.cache))
    (h2 : ¬((90 ≤ goalPercentage actual (goalOpt.getD 0) ∧
      goalPercentage actual (goalOpt.getD 0) < 100) ∧
      cacheKey userId goalType targetDate ++ "_90" ∉ st.cache))
    (h3 : ¬((80 ≤ goalPercentage actual (goalOpt.getD 0) ∧
      goalPercentage actual (goalOpt.getD 0) < 90) ∧
      cacheKey userId goalType targetDate ++ "_80" ∉ st.cache)) :
    checkGoalType userId targetDate goalType actual goalOpt st = st := by
  simp only [checkGoalType]
  by_cases h0 : goalOpt.getD 0 ≤ 0
  · rw [if_pos h0]
  · rw [if_neg h0, if_neg h1, if_neg h2, if_neg h3]

/-- C8: per-goal-type evaluation.  A goal whose configured target is 0,
negative or missing is skipped entirely; otherwise the rounded percentage
`round(actual / goal * 100, 1)` is computed and at most one tier fires —
exactly the tier whose range contains the percentage — and only when that
tier's cache key is absent, in which case the key is marked present and the
tier's achievement payload is dispatched. -/
theorem tier_evaluation_characterization (userId : String) (targetDate : Nat)
    (goalType : String) (actual : ℚ) (goalOpt : Option Int) (st : TrackerState) :
    (goalOpt.getD 0 ≤ 0 →
      checkGoalType userId targetDate goalType actual goalOpt st = st) ∧
    (0 < goalOpt.getD 0 →
      match tierOf (goalPercentage actual (goalOpt.getD 0)) with
      | none => checkGoalType userId targetDate goalType actual goalOpt st = st
      | some t =>
        (tierCacheKey (cacheKey userId goalType targetDate) t ∈ st.cache →
          checkGoalType userId targetDate goalType actual goalOpt st = st) ∧
        (tierCacheKey (cacheKey userId goalType targetDate) t ∉ st.cache →
          checkGoalType userId targetDate goalType actual goalOpt st =
            fireAchievement userId
              (mkAchievement goalType (goalOpt.getD 0) actual
                (goalPercentage actual (goalOpt.getD 0)) targetDate t)
              (tierCacheKey (cacheKey userId goalType targetDate) t) st)) := by
  constructor
  · exact checkGoalType_skip userId targetDate goalType actual goalOpt st
  · intro hpos
    by_cases h100 : 100 ≤ goalPercentage actual (goalOpt.getD 0)
    · have htier : tierOf (goalPercentage actual (goalOpt.getD 0)) = some .t100 := by
        simp [tierOf, h100]
      rw [htier]
      refine ⟨fun hin => ?_, fun hk => ?_⟩
      · exact checkGoalType_noop userId targetDate goalType actual goalOpt st
          (fun hc => hc.2 hin)
          (fun hc => not_le.mpr hc.1.2 h100)
          (fun hc => not_le.mpr (lt_of_lt_of_le hc.1.2 (by norm_num)) h100)
      · exact checkGoalType_fire100 userId targetDate goalType actual goalOpt st
          hpos h100 hk
    · by_cases h90 : 90 ≤ goalPercentage actual (goalOpt.getD 0)
      · have htier : tierOf (goalPercentage actual (goalOpt.getD 0)) = some .t90 := by
          simp [tierOf, h100, h90]
        rw [htier]
        refine ⟨fun hin => ?_, fun hk => ?_⟩
        · exact checkGoalType_noop userId targetDate goalType actual goalOpt st
            (fun hc => h100 hc.1)
            (fun hc => hc.2 hin)
            (fun hc => not_le.mpr hc.1.2 h90)
        · exact checkGoalType_fire90 userId targetDate goalType actual goalOpt st
            hpos h90 (not_le.mp h100) hk
      · by_cases h80 : 80 ≤ goalPercentage actual (goalOpt.getD 0)
        · have htier : tierOf (goalPercentage actual (goalOpt.getD 0)) = some .t80 := by
            simp [tierOf, h100, h90, h80]
          rw [htier]
          refine ⟨fun hin => ?_, fun hk => ?_⟩
          · exact checkGoalType_noop userId targetDate goalType actual goalOpt st
              (fun hc => h100 hc.1)
              (fun hc => h90 hc.1.1)
              (fun hc => hc.2 hin)
          · exact checkGoalType_fire80 userId targetDate goalType actual goalOpt st
              hpos h80 (not_le.mp h90) hk
        · have htier : tierOf (goalPercentage actual (goalOpt.getD 0)) = none := by
            simp [tierOf, h100, h90, h80]
          rw [htier]
          exact checkGoalType_noop userId targetDate goalType actual goalOpt st
            (fun hc => h100 hc.1)
            (fun hc => h90 hc.1.1)
            (fun hc => h80 hc.1.1)

theorem pct_85_of_100 : goalPercentage 85 ((some (100 : Int)).getD 0) = 85 := by
  simp only [Option.getD]
  unfold goalPercentage roundTo1
  norm_num

theorem tierOf_85 : tierOf (goalPercentage 85 ((some (100 : Int)).getD 0)) =
    some .t80 := by
  rw [pct_85_of_100]
  unfold tierOf
  norm_num

/-- Witness for C8: protein 85 of goal 100 fires the 80% tier from the
empty state and marks its suffixed cache key. -/
theorem tier_evaluation_characterization_inst :
    (0 : Int) < (some (100 : Int)).getD 0 ∧
    tierOf (goalPercentage 85 ((some (100 : Int)).getD 0)) = some .t80 ∧
    (checkGoalType "u1" 20250102 "protein" 85 (some 100) TrackerState.empty).cache =
      [cacheKey "u1" "protein" 20250102 ++ "_80"] := by
  refine ⟨by decide, tierOf_85, ?_⟩
  have h := (tier_evaluation_characterization "u1" 20250102 "protein" 85
    (some 100) TrackerState.empty).2 (by decide)
  rw [tierOf_85] at h
  rw [h.2 (by simp [TrackerState.empty])]
  rfl

/-! ### C1: notification creation per (user, goal_type, date) -/

theorem toastNotify_frame (userId : String) (a : Achievement) (st : ToastState)
    (u : String) (hu : u ≠ userId) : toastNotify userId a st u = st u := by
  unfold toastNotify
  by_cases h : (st userId).any (fun n => n.id == notificationId userId a)
  · rw [if_pos h]
  · rw [if_neg h]
    simp [hu]

theorem toastNotify_mem (userId : String) (a : Achievement) (st : ToastState)
    (h : ∃ n ∈ st userId, n.id = notificationId userId a) :
    toastNotify userId a st = st := by
  have hb : (st userId).any (fun n => n.id == notificationId userId a) = true := by
    rw [List.any_eq_true]
    obtain ⟨n, hn, hid⟩ := h
    exact ⟨n, hn, by simpa using hid⟩
  unfold toastNotify
  rw [if_pos hb]

theorem toastNotify_not_mem (userId : String) (a : Achievement) (st : ToastState)
    (h : ¬ ∃ n ∈ st userId, n.id = notificationId userId a) :
    toastNotify userId a st userId = st userId ++ [mkNotification userId a] := by
  have hb : ¬ (st userId).any (fun n => n.id == notificationId userId a) = true := by
    rw [List.any_eq_true]
    rintro ⟨n, hn, hid⟩
    exact h ⟨n, hn, by simpa using hid⟩
  unfold toastNotify
  rw [if_neg hb, if_pos rfl]

/-- Every run of the per-goal-type loop either leaves the toast storage
unchanged or dispatches a single achievement for this goal type and date. -/
theorem checkGoalType_toast_cases (userId : String) (targetDate : Nat)
    (goalType : String) (actual : ℚ) (goalOpt : Option Int) (st : TrackerState) :
    (checkGoalType userId targetDate goalType actual goalOpt st).toast = st.toast ∨
    ∃ a : Achievement, a.goalType = goalType ∧ a.date = targetDate ∧
      (checkGoalType userId targetDate goalType actual goalOpt st).toast =
        toastNotify userId a st.toast := by
  simp only [checkGoalType]
  split_ifs with h0 h1 h2 h3
  · left; rfl
  · right; exact ⟨_, rfl, rfl, rfl⟩
  · right; exact ⟨_, rfl, rfl, rfl⟩
  · right; exact ⟨_, rfl, rfl, rfl⟩
  · left; rfl

/-- C1 amended: a toast entry is created exactly once per
(user, goal_type, date) — not per tier.  Once any entry with the composite
id exists, no call for that (user, goal_type, date) changes the toast
storage (the id omits the tier, so a later different tier is silently
dropped by the duplicate guard); each call appends at most one fresh unread
entry carrying the composite id, and other users' lists are untouched. -/
theorem notification_unique_per_user_goal_date (userId : String)
    (targetDate : Nat) (goalType : String) (actual : ℚ) (goalOpt : Option Int)
    (st : TrackerState) :
    ((∃ n ∈ st.toast userId, n.id = cacheKey userId goalType targetDate) →
      (checkGoalType userId targetDate goalType actual goalOpt st).toast =
        st.toast) ∧
    ((checkGoalType userId targetDate goalType actual goalOpt st).toast userId =
        st.toast userId ∨
      ∃ notif : Notification, notif.id = cacheKey userId goalType targetDate ∧
        notif.read = false ∧
        (checkGoalType userId targetDate goalType actual goalOpt st).toast userId =
          st.toast userId ++ [notif]) ∧
    (∀ u, u ≠ userId →
      (checkGoalType userId targetDate goalType actual goalOpt st).toast u =
        st.toast u) := by
  rcases checkGoalType_toast_cases userId targetDate goalType actual goalOpt st
    with heq | ⟨a, hgt, hd, heq⟩
  · rw [heq]
    exact ⟨fun _ => rfl, Or.inl rfl, fun _ _ => rfl⟩
  · have hid : notificationId userId a = cacheKey userId goalType targetDate := by
      unfold notificationId cacheKey
      rw [hgt, hd]
    by_cases hex : ∃ n ∈ st.toast userId, n.id = notificationId userId a
    · have hsame := toastNotify_mem userId a st.toast hex
      rw [heq, hsame]
      exact ⟨fun _ => rfl, Or.inl rfl, fun _ _ => rfl⟩
    · refine ⟨fun hc => ?_, ?_, ?_⟩
      · rw [hid] at hex
        exact (hex hc).elim
      · right
        exact ⟨mkNotification userId a, hid, rfl,
          by rw [heq]; exact toastNotify_not_mem userId a st.toast hex⟩
      · intro u hu
        rw [heq]
        exact toastNotify_frame userId a st.toast u hu

/-- An already-present entry with the tier-free composite id for user "w". -/
def notifW : Notification :=
  { id := cacheKey "w" "protein" 7, read := false, createdAt := 7,
    achievement := mkAchievement "protein" 100 85 85 7 .t80 }

/-- A toast state already holding the composite-id entry for user "w". -/
def stW : TrackerState :=
  ⟨[], fun u => if u = "w" then [notifW] else []⟩

/-- Witness for the amended C1: with the entry already present, a later
call crossing another tier leaves the toast storage unchanged. -/
theorem notification_unique_per_user_goal_date_inst :
    (∃ n ∈ stW.toast "w", n.id = cacheKey "w" "protein" 7) ∧
    (checkGoalType "w" 7 "protein" 95 (some 100) stW).toast = stW.toast := by
  have hmem : ∃ n ∈ stW.toast "w", n.id = cacheKey "w" "protein" 7 := by
    refine ⟨notifW, ?_, rfl⟩
    show notifW ∈ stW.toast "w"
    simp [stW]
  exact ⟨hmem,
    (notification_unique_per_user_goal_date "w" 7 "protein" 95 (some 100) stW).1 hmem⟩

/-! ### C1 counterexample: a second tier on the same day is never recorded -/

theorem pct_95_of_100 : goalPercentage 95 ((some (100 : Int)).getD 0) = 95 := by
  simp only [Option.getD]
  unfold goalPercentage roundTo1
  norm_num

def goalsC1 : UserGoals :=
  { dailyCalorieGoal := none, dailyProteinGoal := some 100,
    dailyCarbsGoal := none, dailyFatGoal := none }

/-- State after logging 85 g protein (85 %) on day 7. -/
def stC1a : TrackerState :=
  checkGoals "u1" 7 ⟨0, 85, 0, 0⟩ goalsC1 TrackerState.empty

/-- State after then logging 95 g protein (95 %) on the same day. -/
def stC1b : TrackerState :=
  checkGoals "u1" 7 ⟨0, 95, 0, 0⟩ goalsC1 stC1a

theorem stC1a_eq : stC1a = fireAchievement "u1"
    (mkAchievement "protein" ((some (100 : Int)).getD 0) 85
      (goalPercentage 85 ((some (100 : Int)).getD 0)) 7 .t80)
    (cacheKey "u1" "protein" 7 ++ "_80") TrackerState.empty := by
  have h80 : (80 : ℚ) ≤ goalPercentage 85 ((some (100 : Int)).getD 0) := by
    rw [pct_85_of_100]; norm_num
  have hlt : goalPercentage 85 ((some (100 : Int)).getD 0) < 90 := by
    rw [pct_85_of_100]; norm_num
  have hcal : checkGoalType "u1" 7 "calories" 0 none TrackerState.empty =
      TrackerState.empty :=
    checkGoalType_skip _ _ _ _ _ _ (by decide)
  have hpro := checkGoalType_fire80 "u1" 7 "protein" 85 (some 100)
    TrackerState.empty (by decide) h80 hlt (by simp [TrackerState.empty])
  unfold stC1a checkGoals
  simp only [goalsC1]
  rw [hcal, hpro,
    checkGoalType_skip _ _ "carbs" _ _ _ (by decide),
    checkGoalType_skip _ _ "fat" _ _ _ (by decide)]

theorem stC1a_toast : stC1a.toast "u1" =
    [mkNotification "u1"
      (mkAchievement "protein" ((some (100 : Int)).getD 0) 85
        (goalPercentage 85 ((some (100 : Int)).getD 0)) 7 .t80)] := by
  rw [stC1a_eq]
  show toastNotify "u1" _ ToastState.empty "u1" = _
  rw [toastNotify_not_mem _ _ _ (by simp [ToastState.empty])]
  rfl

theorem stC1b_eq : stC1b = fireAchievement "u1"
    (mkAchievement "protein" ((some (100 : Int)).getD 0) 95
      (goalPercentage 95 ((some (100 : Int)).getD 0)) 7 .t90)
    (cacheKey "u1" "protein" 7 ++ "_90") stC1a := by
  have h90 : (90 : ℚ) ≤ goalPercentage 95 ((some (100 : Int)).getD 0) := by
    rw [pct_95_of_100]; norm_num
  have hlt : goalPercentage 95 ((some (100 : Int)).getD 0) < 100 := by
    rw [pct_95_of_100]; norm_num
  have hk : cacheKey "u1" "protein" 7 ++ "_90" ∉ stC1a.cache := by
    rw [stC1a_eq]
    show _ ∉ [cacheKey "u1" "protein" 7 ++ "_80"]
    decide
  have hcal : checkGoalType "u1" 7 "calories" 0 none stC1a = stC1a :=
    checkGoalType_skip _ _ _ _ _ _ (by decide)
  have hpro := checkGoalType_fire90 "u1" 7 "protein" 95 (some 100) stC1a
    (by decide) h90 hlt hk
  unfold stC1b checkGoals
  simp only [goalsC1]
  rw [hcal, hpro,
    checkGoalType_skip _ _ "carbs" _ _ _ (by decide),
    checkGoalType_skip _ _ "fat" _ _ _ (by decide)]

/-- C1 counterexample.  On day 7 user "u1" first reaches 85 % of the
protein goal (80 % tier entry created), then 95 % the same day: the 90 %
tier's range contains the percentage and its cache key is absent, the
tracker dispatches and marks the 90 % key — yet the toast list still holds
exactly the one 80 % entry: no entry per (user, goal_type, date, tier). -/
theorem second_tier_same_day_not_recorded :
    (90 : ℚ) ≤ goalPercentage 95 ((some (100 : Int)).getD 0) ∧
    goalPercentage 95 ((some (100 : Int)).getD 0) < 100 ∧
    cacheKey "u1" "protein" 7 ++ "_90" ∉ stC1a.cache ∧
    cacheKey "u1" "protein" 7 ++ "_90" ∈ stC1b.cache ∧
    (stC1b.toast "u1").map (fun n => n.achievement.milestone) = [some "80%"] ∧
    (stC1b.toast "u1").length = 1 := by
  have hmem : ∃ n ∈ stC1a.toast "u1",
      n.id = notificationId "u1"
        (mkAchievement "protein" ((some (100 : Int)).getD 0) 95
          (goalPercentage 95 ((some (100 : Int)).getD 0)) 7 .t90) := by
    rw [stC1a_toast]
    exact ⟨_, List.mem_singleton.mpr rfl, rfl⟩
  have htoast : stC1b.toast "u1" = stC1a.toast "u1" := by
    rw [stC1b_eq]
    show toastNotify "u1" _ stC1a.toast "u1" = _
    rw [toastNotify_mem _ _ _ hmem]
  refine ⟨by rw [pct_95_of_100]; norm_num, by rw [pct_95_of_100]; norm_num, ?_, ?_, ?_, ?_⟩
  · rw [stC1a_eq]
    show _ ∉ [cacheKey "u1" "protein" 7 ++ "_80"]
    decide
  · rw [stC1b_eq]
    exact List.mem_cons_self _ _
  · rw [htoast, stC1a_toast]
    rfl
  · rw [htoast, stC1a_toast]
    rfl

/-! ### Notification pruning (goal_observer.py lines 102-178) -/

def MAX_NOTIFICATIONS : Nat := 10

/-- Python one-argument slice `l[:k]` with a possibly negative stop: the
first `k` items for `k ≥ 0`, all but the last `-k` items (clamped at zero)
for `k < 0`. -/
def pySliceTo (l : List Notification) (k : Int) : List Notification :=
  if 0 ≤ k then l.take k.toNat else l.take ((l.length : Int) + k).toNat

/-- `sort(key=lambda n: n['created_at'], reverse=True)`: newest first;
the stable `mergeSort` with this comparator matches Python's stable sort. -/
def newestFirst (a b : Notification) : Bool := decide (b.createdAt ≤ a.createdAt)

/-- The step-1 keep condition (lines 148-157): keep unread entries and
read entries not strictly older than the seven-day cutoff. -/
def keepStep1 (cutoff : Nat) (n : Notification) : Bool :=
  !n.read || !(decide (n.createdAt < cutoff))

/-- `ToastNotificationObserver._cleanup_old_notifications`
(goal_observer.py lines 129-178) on one user's list; `cutoff` stands for
`datetime.now() - timedelta(days=7)`.  Step 1 always drops read entries
older than the cutoff; step 2, only when more than 10 remain, sorts
newest-first and keeps all unread plus the Python slice
`read[:10 - len(unread)]` of the read ones. -/
def cleanupList (cutoff : Nat) (l : List Notification) : List Notification :=
  let filtered := l.filter (keepStep1 cutoff)
  if MAX_NOTIFICATIONS < filtered.length then
    let sorted := filtered.mergeSort newestFirst
    let unreadL := sorted.filter (fun n => !n.read)
    let readL := sorted.filter (fun n => n.read)
    unreadL ++ pySliceTo readL ((MAX_NOTIFICATIONS : Int) - unreadL.length)
  else filtered

/-- `_cleanup_old_notifications` at the state level. -/
def cleanupOldNotifications (cutoff : Nat) (userId : String) (st : ToastState) :
    ToastState :=
  fun u => if u = userId then cleanupList cutoff (st userId) else st u

/-- `get_notifications` (goal_observer.py lines 102-114): prune first (a
read-time side effect), then return the pruned list, restricted to unread
entries when `unread_only` is set. -/
def getNotifications (cutoff : Nat) (userId : String) (unreadOnly : Bool)
    (st : ToastState) : List Notification × ToastState :=
  let st' := cleanupOldNotifications cutoff userId st
  ((if unreadOnly then (st' userId).filter (fun n => !n.read) else st' userId),
   st')

/-- The number of read entries step 2 keeps, as the Python slice
`read[:10 - U]` actually computes it: `min (10 - U) R` when `U ≤ 10`, but
`R - (U - 10)` (clamped at zero) when more than 10 unread exist —
a negative slice stop drops only the `U - 10` oldest read entries. -/
def keptReadCount (R U : Nat) : Nat :=
  if U ≤ MAX_NOTIFICATIONS then min (MAX_NOTIFICATIONS - U) R
  else R - (U - MAX_NOTIFICATIONS)

theorem pySliceTo_subset (l : List Notification) (k : Int) :
    pySliceTo l k ⊆ l := by
  unfold pySliceTo
  split
  · exact List.take_subset ..
  · exact List.take_subset ..

theorem newestFirst_trans (a b c : Notification) (h1 : newestFirst a b = true)
    (h2 : newestFirst b c = true) : newestFirst a c = true := by
  simp only [newestFirst, decide_eq_true_eq] at *
  omega

theorem newestFirst_total (a b : Notification) :
    (newestFirst a b || newestFirst b a) = true := by
  simp only [newestFirst, Bool.or_eq_true, decide_eq_true_eq]
  omega

theorem cleanupList_of_le (cutoff : Nat) (l : List Notification)
    (h : (l.filter (keepStep1 cutoff)).length ≤ MAX_NOTIFICATIONS) :
    cleanupList cutoff l = l.filter (keepStep1 cutoff) := by
  simp only [cleanupList]
  rw [if_neg (not_lt.mpr h)]

theorem cleanupList_of_gt (cutoff : Nat) (l : List Notification)
    (h : MAX_NOTIFICATIONS < (l.filter (keepStep1 cutoff)).length) :
    cleanupList cutoff l =
      ((l.filter (keepStep1 cutoff)).mergeSort newestFirst).filter
          (fun n => !n.read) ++
        pySliceTo
          (((l.filter (keepStep1 cutoff)).mergeSort newestFirst).filter
            (fun n => n.read))
          ((MAX_NOTIFICATIONS : Int) -
            (((l.filter (keepStep1 cutoff)).mergeSort newestFirst).filter
              (fun n => !n.read)).length) := by
  simp only [cleanupList]
  rw [if_pos h]

/-- Step 1 never changes the number of unread entries. -/
theorem countP_unread_filter_keep (cutoff : Nat) (l : List Notification) :
    (l.filter (keepStep1 cutoff)).countP (fun n => !n.read) =
      l.countP (fun n => !n.read) := by
  rw [List.countP_filter]
  apply List.countP_congr
  intro x _
  cases hr : x.read <;> simp [keepStep1, hr]

/-- The sorted unread sublist of step 2 has exactly the unread entries. -/
theorem length_unreadL (cutoff : Nat) (l : List Notification) :
    (((l.filter (keepStep1 cutoff)).mergeSort newestFirst).filter
        (fun n => !n.read)).length =
      l.countP (fun n => !n.read) := by
  rw [← List.countP_eq_length_filter,
    (List.mergeSort_perm (l.filter (keepStep1 cutoff)) newestFirst).countP_eq,
    countP_unread_filter_keep]

theorem length_readL (cutoff : Nat) (l : List Notification) :
    (((l.filter (keepStep1 cutoff)).mergeSort newestFirst).filter
        (fun n => n.read)).length =
      (l.filter (keepStep1 cutoff)).countP (fun n => n.read) := by
  rw [← List.countP_eq_length_filter,
    (List.mergeSort_perm (l.filter (keepStep1 cutoff)) newestFirst).countP_eq]

/-- Pruning keeps every unread notification, whatever its age or the
list's size. -/
theorem cleanupList_mem_unread (cutoff : Nat) (l : List Notification)
    (n : Notification) (hn : n ∈ l) (hr : n.read = false) :
    n ∈ cleanupList cutoff l := by
  have hf : n ∈ l.filter (keepStep1 cutoff) :=
    List.mem_filter.mpr ⟨hn, by simp [keepStep1, hr]⟩
  rcases le_or_lt (l.filter (keepStep1 cutoff)).length MAX_NOTIFICATIONS with h | h
  · rw [cleanupList_of_le cutoff l h]
    exact hf
  · rw [cleanupList_of_gt cutoff l h]
    refine List.mem_append_left _ ?_
    refine List.mem_filter.mpr ⟨?_, by simp [hr]⟩
    exact ((List.mergeSort_perm _ newestFirst).mem_iff).mpr hf

/-- Pruning preserves the unread count exactly. -/
theorem cleanupList_countP_unread (cutoff : Nat) (l : List Notification) :
    (cleanupList cutoff l).countP (fun n => !n.read) =
      l.countP (fun n => !n.read) := by
  rcases le_or_lt (l.filter (keepStep1 cutoff)).length MAX_NOTIFICATIONS with h | h
  · rw [cleanupList_of_le cutoff l h, countP_unread_filter_keep]
  · rw [cleanupList_of_gt cutoff l h, List.countP_append]
    have h0 : (pySliceTo
        (((l.filter (keepStep1 cutoff)).mergeSort newestFirst).filter
          (fun n => n.read))
        ((MAX_NOTIFICATIONS : Int) -
          (((l.filter (keepStep1 cutoff)).mergeSort newestFirst).filter
            (fun n => !n.read)).length)).countP (fun n => !n.read) = 0 := by
      rw [List.countP_eq_zero]
      intro a ha
      have : a.read = true := (List.mem_filter.mp (pySliceTo_subset _ _ ha)).2
      simp [this]
    rw [h0, Nat.add_zero, List.countP_filter]
    have : ((l.filter (keepStep1 cutoff)).mergeSort newestFirst).countP
        (fun a => !a.read && !a.read) =
        ((l.filter (keepStep1 cutoff)).mergeSort newestFirst).countP
          (fun a => !a.read) := by
      apply List.countP_congr
      intro x _
      cases hx : x.read <;> simp [hx]
    rw [this, (List.mergeSort_perm (l.filter (keepStep1 cutoff)) newestFirst).countP_eq,
      countP_unread_filter_keep]

/-- C10: pruning never removes an unread notification: the unread count is
preserved exactly, every unread entry survives regardless of age or list
size, and a user holding more than 10 unread notifications keeps a
post-prune list exceeding the 10-entry cap. -/
theorem prune_preserves_unread (cutoff : Nat) (userId : String) (st : ToastState) :
    ((cleanupOldNotifications cutoff userId st userId).countP (fun n => !n.read) =
      (st userId).countP (fun n => !n.read)) ∧
    (∀ n ∈ st userId, n.read = false →
      n ∈ cleanupOldNotifications cutoff userId st userId) ∧
    (MAX_NOTIFICATIONS < (st userId).countP (fun n => !n.read) →
      MAX_NOTIFICATIONS < (cleanupOldNotifications cutoff userId st userId).length) := by
  have hu : cleanupOldNotifications cutoff userId st userId =
      cleanupList cutoff (st userId) := by
    simp [cleanupOldNotifications]
  rw [hu]
  refine ⟨cleanupList_countP_unread cutoff (st userId),
    fun n hn hr => cleanupList_mem_unread cutoff (st userId) n hn hr,
    fun h10 => ?_⟩
  exact lt_of_lt_of_le
    (h10.trans_eq (cleanupList_countP_unread cutoff (st userId)).symm)
    (List.countP_le_length _)

/-! ### Concrete lists for the pruning claims -/

def achC9 : Achievement := mkAchievement "calories" 2000 1500 75 3 .t80

def unreadC9 (i : Nat) : Notification :=
  { id := toString i, read := false, createdAt := 100, achievement := achC9 }

def readC9 (i : Nat) : Notification :=
  { id := toString i, read := true, createdAt := 100, achievement := achC9 }

/-- 13 fresh notifications: 11 unread, then 2 read. -/
def lC9 : List Notification :=
  [unreadC9 0, unreadC9 1, unreadC9 2, unreadC9 3, unreadC9 4, unreadC9 5,
   unreadC9 6, unreadC9 7, unreadC9 8, unreadC9 9, unreadC9 10,
   readC9 11, readC9 12]

/-- The spec's example shape: 12 fresh notifications, 3 unread and 9 read. -/
def lC9w : List Notification :=
  [unreadC9 0, unreadC9 1, unreadC9 2, readC9 3, readC9 4, readC9 5,
   readC9 6, readC9 7, readC9 8, readC9 9, readC9 10, readC9 11]

/-- Witness for C10: with 11 unread notifications the pruned list still
exceeds the 10-entry cap. -/
theorem prune_preserves_unread_inst :
    MAX_NOTIFICATIONS < lC9.countP (fun n => !n.read) ∧
    MAX_NOTIFICATIONS < (cleanupOldNotifications 50 "u" (fun _ => lC9) "u").length := by
  refine ⟨by decide, ?_⟩
  exact (prune_preserves_unread 50 "u" (fun _ => lC9)).2.2 (by decide)

/-- C9 counterexample.  For 13 fresh notifications (11 unread, 2 read), the
claim's rule (b) — keep all unread plus the most-recent read ones to fill
up to 10 total, dropping the rest — would keep exactly the 11 unread and no
read entry; the code's negative Python slice `read[:10-11]` instead keeps
the most-recent read entry as well: 12 entries, one of them read. -/
theorem prune_overflow_unread_keeps_read :
    lC9.countP (fun n => !n.read) = 11 ∧
    lC9.countP (fun n => n.read) = 2 ∧
    cleanupList 50 lC9 = lC9.filter (fun n => !n.read) ++ [readC9 11] ∧
    (cleanupList 50 lC9).length = 12 ∧
    (cleanupList 50 lC9).countP (fun n => n.read) = 1 := by
  have hfil : lC9.filter (keepStep1 50) = lC9 := by
    rw [List.filter_eq_self]
    decide
  have hsorted : lC9.mergeSort newestFirst = lC9 :=
    List.mergeSort_of_sorted (by decide)
  have hclean : cleanupList 50 lC9 = lC9.filter (fun n => !n.read) ++ [readC9 11] := by
    rw [cleanupList_of_gt 50 lC9 (by rw [hfil]; decide), hfil, hsorted]
    rfl
  refine ⟨by decide, by decide, hclean, ?_, ?_⟩
  · rw [hclean]
    rfl
  · rw [hclean]
    rfl

/-- C9 amended: `get_notifications` prunes first; pruning (a) always
removes read entries older than the cutoff (even below the cap) and
returns only step-1 survivors; (b) when more than 10 remain it keeps all
unread entries plus the most-recent read ones — but the number of read
entries kept is the Python slice count `keptReadCount`: `min (10 - U) R`
read entries (filling to 10 total) only when the unread count `U` is at
most 10; when `U` exceeds 10 it keeps `R - (U - 10)` read entries rather
than none. -/
theorem prune_characterization (cutoff : Nat) (l : List Notification) :
    (∀ userId uo st, (getNotifications cutoff userId uo st).2 =
      cleanupOldNotifications cutoff userId st) ∧
    (∀ n ∈ cleanupList cutoff l, n ∈ l.filter (keepStep1 cutoff)) ∧
    (∀ n ∈ cleanupList cutoff l, n.read = true → cutoff ≤ n.createdAt) ∧
    ((l.filter (keepStep1 cutoff)).length ≤ MAX_NOTIFICATIONS →
      cleanupList cutoff l = l.filter (keepStep1 cutoff)) ∧
    (MAX_NOTIFICATIONS < (l.filter (keepStep1 cutoff)).length →
      (∀ n ∈ l.filter (keepStep1 cutoff), n.read = false →
        n ∈ cleanupList cutoff l) ∧
      (cleanupList cutoff l).length =
        l.countP (fun n => !n.read) +
          keptReadCount ((l.filter (keepStep1 cutoff)).countP (fun n => n.read))
            (l.countP (fun n => !n.read)) ∧
      (∀ a ∈ cleanupList cutoff l, a.read = true →
        ∀ b ∈ l.filter (keepStep1 cutoff), b.read = true →
          b ∉ cleanupList cutoff l → b.createdAt ≤ a.createdAt)) := by
  have hB : ∀ n ∈ cleanupList cutoff l, n ∈ l.filter (keepStep1 cutoff) := by
    intro n hn
    rcases le_or_lt (l.filter (keepStep1 cutoff)).length MAX_NOTIFICATIONS with h | h
    · rwa [cleanupList_of_le cutoff l h] at hn
    · rw [cleanupList_of_gt cutoff l h] at hn
      rcases List.mem_append.mp hn with h1 | h2
      · exact ((List.mergeSort_perm _ newestFirst).mem_iff).mp
          (List.mem_filter.mp h1).1
      · exact ((List.mergeSort_perm _ newestFirst).mem_iff).mp
          (List.mem_filter.mp (pySliceTo_subset _ _ h2)).1
  refine ⟨fun _ _ _ => rfl, hB, ?_, cleanupList_of_le cutoff l, ?_⟩
  · intro n hn hread
    have hk := (List.mem_filter.mp (hB n hn)).2
    simp only [keepStep1, hread, Bool.not_true, Bool.false_or,
      Bool.not_eq_true', decide_eq_false_iff_not] at hk
    omega
  · intro h10
    refine ⟨?_, ?_, ?_⟩
    · intro n hn hr
      exact cleanupList_mem_unread cutoff l n (List.mem_of_mem_filter hn) hr
    · rw [cleanupList_of_gt cutoff l h10, List.length_append, length_unreadL]
      congr 1
      unfold pySliceTo keptReadCount
      simp only [MAX_NOTIFICATIONS]
      split_ifs <;> (rw [List.length_take, length_readL]; omega)
    · intro a ha haread b hbf hbread hbnot
      rw [cleanupList_of_gt cutoff l h10] at ha hbnot
      rcases List.mem_append.mp ha with h1 | h2
      · have := (List.mem_filter.mp h1).2
        rw [haread] at this
        exact absurd this (by simp)
      · obtain ⟨t, ht⟩ : ∃ t, pySliceTo
            (((l.filter (keepStep1 cutoff)).mergeSort newestFirst).filter
              (fun n => n.read))
            ((MAX_NOTIFICATIONS : Int) -
              (((l.filter (keepStep1 cutoff)).mergeSort newestFirst).filter
                (fun n => !n.read)).length) =
            (((l.filter (keepStep1 cutoff)).mergeSort newestFirst).filter
              (fun n => n.read)).take t := by
          unfold pySliceTo
          split
          · exact ⟨_, rfl⟩
          · exact ⟨_, rfl⟩
        rw [ht] at h2
        have hbs : b ∈ (l.filter (keepStep1 cutoff)).mergeSort newestFirst :=
          ((List.mergeSort_perm _ newestFirst).mem_iff).mpr hbf
        have hbr : b ∈ ((l.filter (keepStep1 cutoff)).mergeSort newestFirst).filter
            (fun n => n.read) :=
          List.mem_filter.mpr ⟨hbs, by simp [hbread]⟩
        have hbnottake : b ∉ (((l.filter (keepStep1 cutoff)).mergeSort
            newestFirst).filter (fun n => n.read)).take t := by
          intro hb
          exact hbnot (List.mem_append_right _ (ht ▸ hb))
        have hbdrop : b ∈ (((l.filter (keepStep1 cutoff)).mergeSort
            newestFirst).filter (fun n => n.read)).drop t := by
          have hsplit := hbr
          rw [← List.take_append_drop t
            (((l.filter (keepStep1 cutoff)).mergeSort newestFirst).filter
              (fun n => n.read))] at hsplit
          rcases List.mem_append.mp hsplit with hx | hx
          · exact absurd hx hbnottake
          · exact hx
        have hsort := List.sorted_mergeSort newestFirst_trans newestFirst_total
          (l.filter (keepStep1 cutoff))
        have hpr := hsort.filter (fun n => n.read)
        rw [← List.take_append_drop t
          (((l.filter (keepStep1 cutoff)).mergeSort newestFirst).filter
            (fun n => n.read))] at hpr
        obtain ⟨-, -, hcross⟩ := List.pairwise_append.mp hpr
        have := hcross a h2 b hbdrop
        simpa [newestFirst] using this

/-- Witness for the amended C9 at the spec's own example: 12 fresh
notifications, 3 unread and 9 read, prune to exactly 10. -/
theorem prune_characterization_inst :
    MAX_NOTIFICATIONS < (lC9w.filter (keepStep1 50)).length ∧
    (cleanupList 50 lC9w).length = 10 := by
  refine ⟨by decide, ?_⟩
  have h := ((prune_characterization 50 lC9w).2.2.2.2 (by decide)).2.1
  rw [h]
  decide

end NutritionApp
